import Mathlib

/-!
Verification of the keyspace engine, set command handlers, ACL authorization
and adaptive typing of the Fancy in-memory key-value store.

The Go source is embedded shallowly:
* Go maps (`store`, `keyLocks`, `keyExpiry`) become association lists
  `List (String × α)` with `lookup`/`insertKV`/`eraseKV`; a Go map read of a
  missing key yields the zero value, modelled by `Option`.
* Concurrency is modelled sequentially: a `sync.RWMutex` becomes an explicit
  `Lock` record; a `TryLock` retry loop that can never succeed in a
  single-threaded execution is the `Res.blocked` outcome, and a Go runtime
  panic (unlocking an unlocked mutex, index out of range) is `Res.panicked`.
* `runtime.ReadMemStats`/`runtime.GC` are abstracted into a `MemEnv` of heap
  readings supplied as inputs: the reading before the forced GC, the reading
  after it, and one reading per eviction-loop iteration.
-/

namespace Fancy

/-! ### Association-list model of Go maps -/

def lookup (k : String) : List (String × α) → Option α
  | [] => none
  | (k', v) :: rest => if k' = k then some v else lookup k rest

/-- Go `m[k] = v`: overwrite in place, or append a new entry. -/
def insertKV (k : String) (v : α) : List (String × α) → List (String × α)
  | [] => [(k, v)]
  | (k', v') :: rest =>
    if k' = k then (k, v) :: rest else (k', v') :: insertKV k v rest

/-- Go `delete(m, k)`. -/
def eraseKV (k : String) : List (String × α) → List (String × α)
  | [] => []
  | (k', v') :: rest =>
    if k' = k then eraseKV k rest else (k', v') :: eraseKV k rest

@[simp] theorem lookup_nil (k : String) : lookup k ([] : List (String × α)) = none := rfl

@[simp] theorem lookup_cons (k k' : String) (v : α) (rest : List (String × α)) :
    lookup k ((k', v) :: rest) = if k' = k then some v else lookup k rest := rfl

@[simp] theorem lookup_insertKV_self (k : String) (v : α) (l : List (String × α)) :
    lookup k (insertKV k v l) = some v := by
  induction l with
  | nil => simp [insertKV]
  | cons p rest ih =>
    obtain ⟨k', v'⟩ := p
    by_cases h : k' = k <;> simp [insertKV, h, ih]

@[simp] theorem lookup_eraseKV_self (k : String) (l : List (String × α)) :
    lookup k (eraseKV k l) = none := by
  induction l with
  | nil => simp [eraseKV]
  | cons p rest ih =>
    obtain ⟨k', v'⟩ := p
    by_cases h : k' = k <;> simp [eraseKV, h, ih]

/-! ### Data model -/

/-- The tagged union behind the Go `interface{}` values stored in the keyspace.
Floats carry the exact rational the 256-bit parse produced; rounding to a
binary `float64` is below this abstraction. -/
inductive Value where
  | str (s : String)
  | int (n : Int)
  | float (q : ℚ)
  | set (members : List String)
deriving Repr, DecidableEq

def Value.isFloat : Value → Bool
  | .float _ => true
  | _ => false

/-- Sequential state of one `sync.RWMutex`. -/
structure Lock where
  writeLocked : Bool
  readers : Nat
deriving Repr, DecidableEq

def Lock.free : Lock := ⟨false, 0⟩

/-- The fields of `Server` mutated by the keyspace functions.  The LFU and LRU
caches are kept as key lists in eviction order: the head is the next victim
(`Pop`) and `Update` moves a key to the tail (most recently used / most
frequently counted position). -/
structure Keyspace where
  store : List (String × Value)
  keyLocks : List (String × Lock)
  keyExpiry : List (String × Int)
  lfuCache : List String
  lruCache : List String
  changeCount : Nat
deriving Repr, DecidableEq

def Keyspace.empty : Keyspace := ⟨[], [], [], [], [], 0⟩

structure Config where
  maxMemory : Nat
  evictionPolicy : String
  isInCluster : Bool
deriving Repr, DecidableEq

/-- Abstract heap readings: `runtime.ReadMemStats` before the forced GC, after
it, and after each eviction-loop iteration (`loopReadings.getD i 0`). -/
structure MemEnv where
  heapInuse : Nat
  heapAfterGC : Nat
  loopReadings : List Nat
deriving Repr, DecidableEq

def MemEnv.reading (mem : MemEnv) (i : Nat) : Nat := mem.loopReadings.getD i 0

/-- Outcome of a sequential run of a keyspace operation or handler.
`blocked` is a `TryLock`/`TryRLock` retry loop that can never acquire the lock
in a single-threaded execution; `panicked` is a Go runtime panic. -/
inductive Res (α : Type) where
  | ok (a : α) (st : Keyspace)
  | err (msg : String) (st : Keyspace)
  | blocked
  | panicked
deriving Repr, DecidableEq

/-! ### Eviction-policy constants (values of the `utils` constants; the
`utils` package itself is not under `src/`, the strings are fixed by the
spec's config surface: `eviction_policy` ∈ noeviction | allkeys-lru |
allkeys-lfu | allkeys-random | volatile-lru | volatile-lfu | volatile-random
| volatile-ttl). -/

def NoEviction : String := "noeviction"
def AllKeysLFU : String := "allkeys-lfu"
def AllKeysLRU : String := "allkeys-lru"
def AllKeysRandom : String := "allkeys-random"
def VolatileLFU : String := "volatile-lfu"
def VolatileLRU : String := "volatile-lru"
def VolatileRandom : String := "volatile-random"
def VolatileTTL : String := "volatile-ttl"

def goToLower (s : String) : String := String.mk (s.toList.map Char.toLower)

/-! ### Memory pressure (internal/utils.go `IsMaxMemoryExceeded`) -/

/-- `IsMaxMemoryExceeded(maxMemory)`: false when no limit is configured or the
first heap reading is under the limit; otherwise force a GC and report whether
the post-GC reading is still at or above the limit. -/
def IsMaxMemoryExceeded (maxMemory : Nat) (mem : MemEnv) : Bool :=
  if maxMemory = 0 then false
  else if mem.heapInuse < maxMemory then false
  else decide (mem.heapAfterGC ≥ maxMemory)

/-! ### Per-key locking (src/src/server/keyspace.go) -/

def KeyExists (st : Keyspace) (key : String) : Bool :=
  (lookup key st.keyLocks).isSome

/-- `KeyLock`: error when the key has no lock entry; otherwise `TryLock` in a
retry loop — in the sequential model an already-held lock blocks forever. -/
def KeyLock (st : Keyspace) (key : String) : Res Bool :=
  match lookup key st.keyLocks with
  | none => .err ("key " ++ key ++ " not found") st
  | some l =>
    if !l.writeLocked && l.readers = 0 then
      .ok true { st with keyLocks := insertKV key ⟨true, 0⟩ st.keyLocks }
    else .blocked

/-- `KeyUnlock`: a silent no-op when the key does not exist; unlocking an
unlocked `sync.RWMutex` panics. -/
def KeyUnlock (st : Keyspace) (key : String) : Res Unit :=
  match lookup key st.keyLocks with
  | none => .ok () st
  | some l =>
    if l.writeLocked then
      .ok () { st with keyLocks := insertKV key Lock.free st.keyLocks }
    else .panicked

def KeyRLock (st : Keyspace) (key : String) : Res Bool :=
  match lookup key st.keyLocks with
  | none => .err ("key " ++ key ++ " not found") st
  | some l =>
    if !l.writeLocked then
      .ok true { st with keyLocks := insertKV key ⟨false, l.readers + 1⟩ st.keyLocks }
    else .blocked

def KeyRUnlock (st : Keyspace) (key : String) : Res Unit :=
  match lookup key st.keyLocks with
  | none => .ok () st
  | some l =>
    if l.readers > 0 then
      .ok () { st with keyLocks := insertKV key ⟨l.writeLocked, l.readers - 1⟩ st.keyLocks }
    else .panicked

/-- `CreateKeyAndLock`: memory-policy gate, then create-and-write-lock a fresh
key (under the creation lock, elided sequentially), or `KeyLock` an existing
one. -/
def CreateKeyAndLock (cfg : Config) (mem : MemEnv) (st : Keyspace) (key : String) : Res Bool :=
  if IsMaxMemoryExceeded cfg.maxMemory mem && cfg.evictionPolicy == NoEviction then
    .err "max memory reached, key not created" st
  else if !KeyExists st key then
    .ok true { st with keyLocks := insertKV key ⟨true, 0⟩ st.keyLocks }
  else
    KeyLock st key

/-! ### Eviction caches and `adjustMemoryUsage` -/

/-- Modelled from the spec: the EvictionCache `update(k)` operation (the
`eviction` package is not under `src/`). The cache is a key list in eviction
order; `update` moves the key to the tail (most-recent / most-counted end),
matching the spec's LRU contract. The claims do not depend on the LFU victim
order, which this list shares with LRU. -/
def cacheUpdate (cache : List String) (key : String) : List String :=
  cache.filter (fun k => k ≠ key) ++ [key]

/-- Deletion of one key as performed by every eviction path of
`adjustMemoryUsage`: `delete(store,key); delete(keyExpiry,key);
delete(keyLocks,key)` under the victim's freshly acquired write lock. -/
def deleteKeyEntries (st : Keyspace) (key : String) : Keyspace :=
  { st with
    store := eraseKV key st.store
    keyExpiry := eraseKV key st.keyExpiry
    keyLocks := eraseKV key st.keyLocks }

/-- One eviction loop of `adjustMemoryUsage`: pop victims from the given cache
until a heap reading drops below the limit or the cache empties.  `setCache`
writes the shrunken cache back into the state.  The victim must be
`KeyLock`ed; a missing lock entry aborts with the wrapped error. -/
def evictLoop (cfg : Config) (mem : MemEnv) (emptyMsg lockMsg : String)
    (setCache : Keyspace → List String → Keyspace) :
    List String → Nat → Keyspace → Res Unit
  | [], _, st => .err emptyMsg (setCache st [])
  | victim :: rest, i, st =>
    match KeyLock (setCache st rest) victim with
    | .err m st' => .err (lockMsg ++ ": " ++ m) st'
    | .blocked => .blocked
    | .panicked => .panicked
    | .ok _ st' =>
      let st'' := deleteKeyEntries st' victim
      if mem.reading i < cfg.maxMemory then .ok () st''
      else evictLoop cfg mem emptyMsg lockMsg setCache rest (i + 1) st''

/-- The random-eviction loops: pick a key from the map (`rand.Intn` modelled
as index 0, the first entry in iteration order; the claims do not depend on
the choice), lock and delete it, recheck. -/
def evictRandomLoop (cfg : Config) (mem : MemEnv) (errMsg : String)
    (domain : Keyspace → List String) :
    Nat → Nat → Keyspace → Res Unit
  | 0, _, st => .err errMsg st
  | n + 1, i, st =>
    match (domain st).head? with
    | none => .err errMsg st
    | some victim =>
      match KeyLock st victim with
      | .err m st' => .err (errMsg ++ ": " ++ m) st'
      | .blocked => .blocked
      | .panicked => .panicked
      | .ok _ st' =>
        let st'' := deleteKeyEntries st' victim
        if mem.reading i < cfg.maxMemory then .ok () st''
        else evictRandomLoop cfg mem errMsg domain n (i + 1) st''

/-- `adjustMemoryUsage`: nothing to do without a limit or under it (before or
after a forced GC); otherwise dispatch on the lower-cased eviction policy.
`volatile-ttl` and `noeviction` match no case and fall through to the
`default` branch, which returns nil. -/
def adjustMemoryUsage (cfg : Config) (mem : MemEnv) (st : Keyspace) : Res Unit :=
  if cfg.maxMemory = 0 then .ok () st
  else if mem.heapInuse < cfg.maxMemory then .ok () st
  else if mem.heapAfterGC < cfg.maxMemory then .ok () st
  else if goToLower cfg.evictionPolicy = AllKeysLFU ∨ goToLower cfg.evictionPolicy = VolatileLFU then
    evictLoop cfg mem "adjsutMemoryUsage -> LFU cache empty" "adjustMemoryUsage -> LFU cache eviction"
      (fun s c => { s with lfuCache := c }) st.lfuCache 0 st
  else if goToLower cfg.evictionPolicy = AllKeysLRU ∨ goToLower cfg.evictionPolicy = VolatileLRU then
    evictLoop cfg mem "adjsutMemoryUsage -> LRU cache empty" "adjustMemoryUsage -> LRU cache eviction"
      (fun s c => { s with lruCache := c }) st.lruCache 0 st
  else if goToLower cfg.evictionPolicy = AllKeysRandom then
    evictRandomLoop cfg mem "adjustMemoryUsage -> all keys random"
      (fun s => s.keyLocks.map Prod.fst) st.keyLocks.length 0 st
  else if goToLower cfg.evictionPolicy = VolatileRandom then
    evictRandomLoop cfg mem "adjustMemoryUsage -> volatile keys random"
      (fun s => s.keyExpiry.map Prod.fst) st.keyExpiry.length 0 st
  else .ok () st

/-- `updateKeyInCache`: skip entirely when no memory limit is configured;
update the LFU/LRU cache selected by the policy (volatile variants only touch
keys that have an expiry entry); then `adjustMemoryUsage`. -/
def updateKeyInCache (cfg : Config) (mem : MemEnv) (st : Keyspace) (key : String) : Res Unit :=
  if cfg.maxMemory = 0 then .ok () st
  else
    let p := goToLower cfg.evictionPolicy
    let st1 :=
      if p = AllKeysLFU then { st with lfuCache := cacheUpdate st.lfuCache key }
      else if p = AllKeysLRU then { st with lruCache := cacheUpdate st.lruCache key }
      else if p = VolatileLFU then
        if (lookup key st.keyExpiry).isSome then { st with lfuCache := cacheUpdate st.lfuCache key } else st
      else if p = VolatileLRU then
        if (lookup key st.keyExpiry).isSome then { st with lruCache := cacheUpdate st.lruCache key } else st
      else st
    adjustMemoryUsage cfg mem st1

/-! ### Read and write (src/src/server/keyspace.go `GetValue`, `SetValue`,
`SetKeyExpiry`, `RemoveKeyExpiry`) -/

/-- `GetValue`: update the cache (an error is only logged), then return
`store[key]` — the expiry map is never consulted. -/
def GetValue (cfg : Config) (mem : MemEnv) (st : Keyspace) (key : String) : Res (Option Value) :=
  match updateKeyInCache cfg mem st key with
  | .ok _ st' => .ok (lookup key st'.store) st'
  | .err _ st' => .ok (lookup key st'.store) st'
  | .blocked => .blocked
  | .panicked => .panicked

/-- `SetValue`: memory-policy gate, store the value, update the cache (errors
logged), and outside cluster mode bump the snapshot change count. -/
def SetValue (cfg : Config) (mem : MemEnv) (st : Keyspace) (key : String) (value : Value) : Res Unit :=
  if IsMaxMemoryExceeded cfg.maxMemory mem && cfg.evictionPolicy == NoEviction then
    .err "max memory reached, key value not set" st
  else
    let st1 := { st with store := insertKV key value st.store }
    match updateKeyInCache cfg mem st1 key with
    | .ok _ st2 =>
      .ok () (if cfg.isInCluster then st2 else { st2 with changeCount := st2.changeCount + 1 })
    | .err _ st2 =>
      .ok () (if cfg.isInCluster then st2 else { st2 with changeCount := st2.changeCount + 1 })
    | .blocked => .blocked
    | .panicked => .panicked

/-- `SetKeyExpiry`: write the expiry time; on `touch`, refresh the cache. -/
def SetKeyExpiry (cfg : Config) (mem : MemEnv) (st : Keyspace) (key : String)
    (expire : Int) (touch : Bool) : Res Unit :=
  let st1 := { st with keyExpiry := insertKV key expire st.keyExpiry }
  if touch then
    match updateKeyInCache cfg mem st1 key with
    | .ok _ st2 => .ok () st2
    | .err _ st2 => .ok () st2
    | .blocked => .blocked
    | .panicked => .panicked
  else .ok () st1

/-- `RemoveKeyExpiry`: reset the expiry to the zero time (the entry is kept,
holding the never-expires sentinel 0) and drop the key from the cache matching
the policy. -/
def RemoveKeyExpiry (cfg : Config) (st : Keyspace) (key : String) : Keyspace :=
  let st1 := { st with keyExpiry := insertKV key 0 st.keyExpiry }
  if cfg.evictionPolicy = AllKeysLFU ∨ cfg.evictionPolicy = VolatileLFU then
    { st1 with lfuCache := st1.lfuCache.filter (fun k => k ≠ key) }
  else if cfg.evictionPolicy = AllKeysLRU ∨ cfg.evictionPolicy = VolatileLRU then
    { st1 with lruCache := st1.lruCache.filter (fun k => k ≠ key) }
  else st1

/-! ### TTL sweeper (src/src/echovault/echovault.go `NewEchoVault`) -/

/-- From `NewEchoVault`: the background goroutine calling
`evictKeysWithExpiredTTL` every `EvictionInterval` is started only when the
eviction policy is not `noeviction`. -/
def sweeperStarted (cfg : Config) : Bool := cfg.evictionPolicy ≠ NoEviction

/-- Modelled from the spec: `evictKeysWithExpiredTTL` (referenced by
`NewEchoVault` but not under `src/`).  Per spec §4.1, keys from the TTL index
whose expiry has passed are write-locked and deleted; the zero time is the
never-expires sentinel.  The `eviction_sample` cap is not modelled. -/
def evictKeysWithExpiredTTL (now : Int) (st : Keyspace) : Keyspace :=
  let expired := (st.keyExpiry.filter (fun p => p.2 ≠ 0 && decide (p.2 < now))).map Prod.fst
  expired.foldl deleteKeyEntries st

/-! ### Set data type (the `Set` structure with `NewSet`, `Add`,
`Intersection`, `GetAll`, `Cardinality` is referenced by
src/src/modules/set/commands.go but its definition is not under `src/`). -/

/-- Modelled from the spec: a set value is a duplicate-free collection of
strings (§3 "set (set of string)"); `Add` inserts the elements in order,
skipping members already present, and returns the count of members actually
added (the behaviour the tests in commant_test.go assert). -/
def SetAdd (members : List String) (elems : List String) : List String × Nat :=
  elems.foldl
    (fun acc e => if acc.1.contains e then acc else (acc.1 ++ [e], acc.2 + 1))
    (members, 0)

/-- Modelled from the spec: `NewSet` builds a set from the listed elements. -/
def NewSet (elems : List String) : List String := (SetAdd [] elems).1

/-- Modelled from the spec: `Intersection(others, limit)` with `limit = 0`
(unlimited), as every set handler under `src/` calls it: the members of the
base set present in all the other sets. -/
def SetIntersection (base : List String) (others : List (List String)) : List String :=
  base.filter (fun e => others.all (fun s => s.contains e))

/-- Value of `utils.WRONG_ARGS_RESPONSE` (the constant is referenced but not
defined under `src/`; no claim depends on its text). -/
def WRONG_ARGS_RESPONSE : String := "wrong number of arguments"

/-- The RESP array serialization loop shared by the set handlers:
`res := "*len"`, then for each element `"\r\n$len\r\nelem"`, closing with
`"\r\n\r\n"` after the last element (an empty array stays `"*0"`).
Go `len` on a string counts bytes. -/
def respArray (elems : List String) : String :=
  "*" ++ toString elems.length ++
    String.join (elems.map (fun e => "\r\n$" ++ toString e.utf8ByteSize ++ "\r\n" ++ e)) ++
    (if elems.isEmpty then "" else "\r\n\r\n")

/-! ### Set command handlers (src/src/modules/set/commands.go) -/

/-- `KeyUnlock` then reply — the common tail of the write handlers
(the `SetValue` error is discarded by the `utils.Server` interface). -/
def saddUnlockReply (st : Keyspace) (key : String) (reply : String) : Res String :=
  match KeyUnlock st key with
  | .ok _ st' => .ok reply st'
  | .err m st' => .err m st'
  | .blocked => .blocked
  | .panicked => .panicked

/-- `handleSADD`. -/
def handleSADD (cfg : Config) (mem : MemEnv) (st : Keyspace) (cmd : List String) : Res String :=
  if cmd.length < 3 then .err WRONG_ARGS_RESPONSE st
  else
    if !KeyExists st (cmd.getD 1 "") then
      -- new key: build the set, create-and-lock, store (the utils.Server
      -- interface discards SetValue's error), unlock, reply with the raw
      -- argument count
      match CreateKeyAndLock cfg mem st (cmd.getD 1 "") with
      | .err m st' => .err m st'
      | .blocked => .blocked
      | .panicked => .panicked
      | .ok _ st1 =>
        match SetValue cfg mem st1 (cmd.getD 1 "") (.set (NewSet (cmd.drop 2))) with
        | .blocked => .blocked
        | .panicked => .panicked
        | .ok _ st2 =>
          saddUnlockReply st2 (cmd.getD 1 "") (":" ++ toString (cmd.length - 2) ++ "\r\n\r\n")
        | .err _ st2 =>
          saddUnlockReply st2 (cmd.getD 1 "") (":" ++ toString (cmd.length - 2) ++ "\r\n\r\n")
    else
      match KeyLock st (cmd.getD 1 "") with
      | .err m st' => .err m st'
      | .blocked => .blocked
      | .panicked => .panicked
      | .ok _ st1 =>
        match GetValue cfg mem st1 (cmd.getD 1 "") with
        | .err m st2 => .err m st2
        | .blocked => .blocked
        | .panicked => .panicked
        | .ok v st2 =>
          match v with
          | some (.set members) =>
            -- set.Add mutates the stored *Set in place
            match KeyUnlock
                { st2 with
                  store := insertKV (cmd.getD 1 "") (.set (SetAdd members (cmd.drop 2)).1) st2.store }
                (cmd.getD 1 "") with
            | .ok _ st4 => .ok (":" ++ toString (SetAdd members (cmd.drop 2)).2 ++ "\r\n\n") st4
            | .err m st4 => .err m st4
            | .blocked => .blocked
            | .panicked => .panicked
          | _ =>
            match KeyUnlock st2 (cmd.getD 1 "") with
            | .ok _ st3 => .err ("value at key " ++ cmd.getD 1 "" ++ " is not a set") st3
            | .err m st3 => .err m st3
            | .blocked => .blocked
            | .panicked => .panicked

/-- Outcome of the read-lock phase shared by the multi-key set handlers:
either every source key existed and was read-locked (`done`), or a key was
missing (`missing`, reply `*0`), or a `KeyRLock` failed (`failed`).  The
`locks` map is modelled by the dedup `locked` list in locking order (Go map
iteration order is arbitrary; the stored intersection is order-independent,
so the claims do not depend on this choice). -/
inductive LockPhase where
  | done (locked : List String)
  | missing (locked : List String)
  | failed (locked : List String) (msg : String)
deriving Repr, DecidableEq

def sinterLockPhase (st : Keyspace) : List String → List String → LockPhase × Keyspace
  | [], locked => (.done locked, st)
  | key :: rest, locked =>
    if KeyExists st key then
      match KeyRLock st key with
      | .ok _ st' =>
        sinterLockPhase st' rest (if locked.contains key then locked else locked ++ [key])
      | .err m st' => (.failed locked m, st')
      | _ => (.failed locked "blocked", st)
    else (.missing locked, st)

/-- The deferred `KeyRUnlock` loop over the `locks` map. -/
def runlockAll (st : Keyspace) : List String → Res Unit
  | [] => .ok () st
  | k :: rest =>
    match KeyRUnlock st k with
    | .ok _ st' => runlockAll st' rest
    | .err m st' => .err m st'
    | .blocked => .blocked
    | .panicked => .panicked

/-- Apply the deferred read-unlocks to a handler result. -/
def withRUnlocks (locked : List String) : Res String → Res String
  | .ok a st =>
    match runlockAll st locked with
    | .ok _ st' => .ok a st'
    | .err m st' => .err m st'
    | .blocked => .blocked
    | .panicked => .panicked
  | .err m st =>
    match runlockAll st locked with
    | .ok _ st' => .err m st'
    | .err m' st' => .err m' st'
    | .blocked => .blocked
    | .panicked => .panicked
  | .blocked => .blocked
  | .panicked => .panicked

/-- Read each locked key and require a set value. -/
def collectSets (cfg : Config) (mem : MemEnv) (st : Keyspace) :
    List String → List (List String) → Res (List (List String))
  | [], acc => .ok acc st
  | key :: rest, acc =>
    match GetValue cfg mem st key with
    | .ok (some (.set xs)) st' => collectSets cfg mem st' rest (acc ++ [xs])
    | .ok _ st' => .err ("value at key " ++ key ++ " is not a set") st'
    | .err m st' => .err m st'
    | .blocked => .blocked
    | .panicked => .panicked

/-- `handleSINTERSTORE`. -/
def handleSINTERSTORE (cfg : Config) (mem : MemEnv) (st : Keyspace) (cmd : List String) :
    Res String :=
  if cmd.length < 3 then .err WRONG_ARGS_RESPONSE st
  else
    match sinterLockPhase st (cmd.drop 2) [] with
    | (.missing locked, st1) => withRUnlocks locked (.ok "*0\r\n\r\n" st1)
    | (.failed locked m, st1) => withRUnlocks locked (.err m st1)
    | (.done locked, st1) =>
      withRUnlocks locked <|
        match collectSets cfg mem st1 locked [] with
        | .err m st2 => .err m st2
        | .blocked => .blocked
        | .panicked => .panicked
        | .ok sets st2 =>
          match sets with
          | [] => .err "not enough sets in the keys provided" st2
          | base :: others =>
            let intersect := SetIntersection base others
            let destination := cmd.getD 1 ""
            let acquired :=
              if KeyExists st2 destination then KeyLock st2 destination
              else CreateKeyAndLock cfg mem st2 destination
            match acquired with
            | .err m st3 => .err m st3
            | .blocked => .blocked
            | .panicked => .panicked
            | .ok _ st3 =>
              match SetValue cfg mem st3 destination (.set intersect) with
              | .blocked => .blocked
              | .panicked => .panicked
              | .ok _ st4 =>
                saddUnlockReply st4 destination (":" ++ toString intersect.length ++ "\r\n\r\n")
              | .err _ st4 =>
                saddUnlockReply st4 destination (":" ++ toString intersect.length ++ "\r\n\r\n")

/-- `handleSMEMBERS`. -/
def handleSMEMBERS (cfg : Config) (mem : MemEnv) (st : Keyspace) (cmd : List String) :
    Res String :=
  if cmd.length ≠ 2 then .err WRONG_ARGS_RESPONSE st
  else
    let key := cmd.getD 1 ""
    if !KeyExists st key then .ok "*0\r\n\r\n" st
    else
      match KeyRLock st key with
      | .err m st' => .err m st'
      | .blocked => .blocked
      | .panicked => .panicked
      | .ok _ st1 =>
        match GetValue cfg mem st1 key with
        | .err m st2 => .err m st2
        | .blocked => .blocked
        | .panicked => .panicked
        | .ok v st2 =>
          match v with
          | some (.set members) =>
            match KeyRUnlock st2 key with
            | .ok _ st3 => .ok (respArray members) st3
            | .err m st3 => .err m st3
            | .blocked => .blocked
            | .panicked => .panicked
          | _ =>
            match KeyRUnlock st2 key with
            | .ok _ st3 => .err ("value at key " ++ key ++ " is not a set") st3
            | .err m st3 => .err m st3
            | .blocked => .blocked
            | .panicked => .panicked

/-! ### ACL authorization (the `AuthorizeConnection` implementation embedded
here is the full one shipped in the repository's acl package; the copy at
src/src/acl/acl.go:128 is an earlier stub that returns nil unconditionally). -/

def ReadCategory : String := "read"
def WriteCategory : String := "write"
def PubSubCategory : String := "pubsub"

/-- The per-user allow/deny lists consulted by `AuthorizeConnection`. -/
structure User where
  includedCategories : List String
  excludedCategories : List String
  includedCommands : List String
  excludedCommands : List String
  includedKeys : List String
  excludedKeys : List String
  includedReadKeys : List String
  includedWriteKeys : List String
  includedPubSubChannels : List String
  excludedPubSubChannels : List String
deriving Repr, DecidableEq

/-- One entry of an inclusion/exclusion list matches `x` when it is the
wildcard `"*"` or equals `x` (glob matching is a TODO in the source). -/
def matchesEntry (entry x : String) : Bool := entry = "*" || entry = x

def allowedBy (lst : List String) (x : String) : Bool :=
  lst.any (fun e => matchesEntry e x)

inductive AuthResult where
  | ok
  | unauthorized (msg : String)
  | panicked
deriving Repr, DecidableEq

/-- `AuthorizeConnection(conn, cmd, command, subCommand)` after key
extraction: `comm`, `categories` and `keys` are the resolved command name,
category list and extracted keys (for pub/sub commands the extraction returns
channels, so `keys[0]` is the channel — Go panics when that slice is empty).
The checks run in source order; note that the category and key inclusion
checks pass as soon as ONE category / ONE key is allowed
(`slices.ContainsFunc` over the categories/keys). -/
def AuthorizeConnection (requirePass authenticated : Bool) (user : User)
    (comm : String) (categories keys : List String) : AuthResult :=
  if goToLower comm = "auth" then .ok
  else if requirePass && !authenticated then .unauthorized "user must be authenticated"
  else if !(categories.any (fun c => allowedBy user.includedCategories c)) then
    .unauthorized "unauthorized access to the following categories"
  else if categories.any (fun c => allowedBy user.excludedCategories c) then
    .unauthorized "unauthorized access to the following categories"
  else if !(allowedBy user.includedCommands comm) then
    .unauthorized ("not authorised to run " ++ comm ++ " command")
  else if allowedBy user.excludedCommands comm then
    .unauthorized ("not authorised to run " ++ comm ++ " command")
  else if categories.contains PubSubCategory then
    match keys with
    | [] => .panicked
    | channel :: _ =>
      if !(allowedBy user.includedPubSubChannels channel) then
        .unauthorized ("not authorised to access channel " ++ channel)
      else if allowedBy user.excludedPubSubChannels channel then
        .unauthorized ("not authorised to access channel " ++ channel)
      else .ok
  else if decide (keys.length > 0) && !(keys.any (fun k => allowedBy user.includedKeys k)) then
    .unauthorized "not authorised to access the following keys"
  else if decide (keys.length > 0) && categories.contains ReadCategory
      && !(keys.any (fun k => allowedBy user.includedReadKeys k)) then
    .unauthorized "not authorised to access the following keys"
  else if decide (keys.length > 0) && categories.contains WriteCategory
      && !(keys.any (fun k => allowedBy user.includedWriteKeys k)) then
    .unauthorized "not authorised to access the following keys"
  else .ok

/-- The authorization conditions exactly as the claim (spec §4.5) words them:
authenticated if require_pass; EVERY category allowed and none excluded; the
command allowed and not excluded; EVERY key in included_keys, additionally in
included_read_keys / included_write_keys for read / write commands; for
pub/sub commands the channel allowed and not excluded. -/
def authorizeSpecOk (requirePass authenticated : Bool) (user : User)
    (comm : String) (categories keys : List String) : Prop :=
  (requirePass = true → authenticated = true) ∧
  (∀ c ∈ categories, allowedBy user.includedCategories c = true) ∧
  (∀ c ∈ categories, allowedBy user.excludedCategories c = false) ∧
  allowedBy user.includedCommands comm = true ∧
  allowedBy user.excludedCommands comm = false ∧
  (∀ k ∈ keys, allowedBy user.includedKeys k = true) ∧
  (categories.contains ReadCategory = true →
    ∀ k ∈ keys, allowedBy user.includedReadKeys k = true) ∧
  (categories.contains WriteCategory = true →
    ∀ k ∈ keys, allowedBy user.includedWriteKeys k = true) ∧
  (categories.contains PubSubCategory = true →
    ∀ ch ∈ keys, allowedBy user.includedPubSubChannels ch = true ∧
      allowedBy user.excludedPubSubChannels ch = false)

instance (requirePass authenticated : Bool) (user : User)
    (comm : String) (categories keys : List String) :
    Decidable (authorizeSpecOk requirePass authenticated user comm categories keys) := by
  unfold authorizeSpecOk; infer_instance

/-! ### Adaptive typing (internal/utils.go `AdaptType`) -/

def digitVal (c : Char) : Nat := c.toNat - 48

def allDigits (cs : List Char) : Bool := cs.all Char.isDigit

def digitsVal (cs : List Char) : Nat :=
  cs.foldl (fun a c => a * 10 + digitVal c) 0

/-- Split at the first character matched by `p`; the second component is
`none` when nothing matched. -/
def splitFirst (p : Char → Bool) : List Char → List Char × Option (List Char)
  | [] => ([], none)
  | c :: rest =>
    if p c then ([], some rest)
    else
      let (pre, post) := splitFirst p rest
      (c :: pre, post)

/-- Mantissa of a base-10 `big.Float` literal: digits, optionally with one
decimal point carrying digits on at least one side. -/
def parseMantissa (cs : List Char) : Option ℚ :=
  match splitFirst (fun c => c = '.') cs with
  | (intPart, none) =>
    if intPart ≠ [] && allDigits intPart then some ((digitsVal intPart : ℚ)) else none
  | (intPart, some fracPart) =>
    if (intPart ≠ [] || fracPart ≠ []) && allDigits intPart && allDigits fracPart then
      some ((digitsVal intPart : ℚ) + (digitsVal fracPart : ℚ) / ((10 : ℚ) ^ fracPart.length))
    else none

/-- Exponent part after `e`/`E`: optional sign, then digits. -/
def parseExp (cs : List Char) : Option Int :=
  match cs with
  | '+' :: rest => if rest ≠ [] && allDigits rest then some (digitsVal rest) else none
  | '-' :: rest => if rest ≠ [] && allDigits rest then some (-(digitsVal rest : Int)) else none
  | _ => if cs ≠ [] && allDigits cs then some (digitsVal cs) else none

/-- Strip an optional leading sign, returning the sign factor and the rest. -/
def stripSign (cs : List Char) : Int × List Char :=
  match cs with
  | [] => (1, [])
  | c :: rest => if c = '+' then (1, rest) else if c = '-' then (-1, rest) else (1, cs)

/-- The value parsed by `big.ParseFloat(s, 10, 256, ...)` for finite decimal
literals, as an exact rational: optional sign, mantissa, optional decimal
exponent.  Rounding to the 256-bit mantissa and the `Inf` literals are below
this abstraction (the claims are settled on exactly representable tokens). -/
def parseGoDecimal (s : String) : Option ℚ :=
  let signed := stripSign s.toList
  match splitFirst (fun c => c = 'e' || c = 'E') signed.2 with
  | (mant, none) => (parseMantissa mant).map (fun q => signed.1 * q)
  | (mant, some expPart) =>
    match parseMantissa mant, parseExp expPart with
    | some q, some e => some (signed.1 * q * (10 : ℚ) ^ e)
    | _, _ => none

def int64Max : Int := 2 ^ 63 - 1
def int64Min : Int := -(2 ^ 63)

/-- Go `big.Float.Int64` saturates out-of-range values to the int64 bounds
(the returned accuracy is discarded by `AdaptType`); the final `int(i)`
conversion is the identity on 64-bit platforms. -/
def clampInt64 (n : Int) : Int :=
  if n > int64Max then int64Max else if n < int64Min then int64Min else n

/-- `AdaptType`: parse failure keeps the string; an integer-valued parse
(`IsInt`) yields `int(n.Int64())`; anything else yields the float. -/
def AdaptType (s : String) : Value :=
  match parseGoDecimal s with
  | none => .str s
  | some q => if q.den = 1 then .int (clampInt64 q.num) else .float q

/-- The spec's "base-10 integer" token class: an optional sign followed by
one or more digits. -/
def isIntegerLiteral (s : String) : Bool :=
  let signed := stripSign s.toList
  signed.2 ≠ [] && allDigits signed.2

/-- The integer value of a base-10 integer token. -/
def integerLiteralVal (s : String) : Int :=
  let signed := stripSign s.toList
  signed.1 * (digitsVal signed.2 : Int)

/-! ### Shared lemmas -/

theorem lookup_eraseKV (k k' : String) (l : List (String × α)) :
    lookup k (eraseKV k' l) = if k' = k then none else lookup k l := by
  induction l with
  | nil => simp [eraseKV]
  | cons p rest ih =>
    obtain ⟨k'', v''⟩ := p
    by_cases h1 : k'' = k'
    · subst h1
      by_cases h2 : k'' = k
      · subst h2; simp [eraseKV, ih]
      · simp [eraseKV, lookup, h2, ih]
    · by_cases h2 : k'' = k
      · subst h2
        have hne : ¬k' = k'' := fun h => h1 h.symm
        simp [eraseKV, lookup, h1, hne]
      · simp [eraseKV, lookup, h1, h2, ih]

theorem mem_of_lookup_eq_some {k : String} {v : α} {l : List (String × α)}
    (h : lookup k l = some v) : (k, v) ∈ l := by
  induction l with
  | nil => simp [lookup] at h
  | cons p rest ih =>
    obtain ⟨k', v'⟩ := p
    by_cases hk : k' = k
    · subst hk
      simp [lookup] at h
      simp [h]
    · simp [lookup, hk] at h
      exact List.mem_cons_of_mem _ (ih h)

/-- A key already absent from all three maps stays absent through further
eviction deletions. -/
theorem foldl_deleteKeyEntries_preserves_absent (keys : List String) (st : Keyspace)
    (k : String)
    (h : lookup k st.store = none ∧ lookup k st.keyLocks = none ∧ lookup k st.keyExpiry = none) :
    lookup k ((keys.foldl deleteKeyEntries st).store) = none ∧
    lookup k ((keys.foldl deleteKeyEntries st).keyLocks) = none ∧
    lookup k ((keys.foldl deleteKeyEntries st).keyExpiry) = none := by
  induction keys generalizing st with
  | nil => simpa using h
  | cons k' rest ih =>
    refine ih (deleteKeyEntries st k') ?_
    obtain ⟨h1, h2, h3⟩ := h
    refine ⟨?_, ?_, ?_⟩ <;> simp [deleteKeyEntries, lookup_eraseKV, h1, h2, h3]

/-- Any key in the evicted list is gone from all three maps after the fold. -/
theorem foldl_deleteKeyEntries_removes (keys : List String) (st : Keyspace) (k : String)
    (h : k ∈ keys) :
    lookup k ((keys.foldl deleteKeyEntries st).store) = none ∧
    lookup k ((keys.foldl deleteKeyEntries st).keyLocks) = none ∧
    lookup k ((keys.foldl deleteKeyEntries st).keyExpiry) = none := by
  induction keys generalizing st with
  | nil => cases h
  | cons k' rest ih =>
    rcases List.mem_cons.mp h with h' | h'
    · subst h'
      by_cases hmem : k ∈ rest
      · exact ih (deleteKeyEntries st k) hmem
      · refine foldl_deleteKeyEntries_preserves_absent rest (deleteKeyEntries st k) k ?_
        refine ⟨?_, ?_, ?_⟩ <;> simp [deleteKeyEntries, lookup_eraseKV]
    · exact ih (deleteKeyEntries st k') h'

/-- When no memory limit is configured or the heap is under it,
`updateKeyInCache` succeeds and mutates at most the cache fields. -/
theorem updateKeyInCache_no_pressure (cfg : Config) (mem : MemEnv) (st : Keyspace)
    (key : String)
    (h : cfg.maxMemory = 0 ∨ mem.heapInuse < cfg.maxMemory) :
    ∃ st', updateKeyInCache cfg mem st key = .ok () st' ∧
      st'.store = st.store ∧ st'.keyLocks = st.keyLocks ∧
      st'.keyExpiry = st.keyExpiry ∧ st'.changeCount = st.changeCount := by
  unfold updateKeyInCache
  rcases h with h | h
  · exact ⟨st, by simp [h], rfl, rfl, rfl, rfl⟩
  · have hmax : ¬cfg.maxMemory = 0 := by omega
    simp only [hmax, if_false]
    unfold adjustMemoryUsage
    simp only [hmax, if_false, h, if_true]
    split_ifs <;> exact ⟨_, rfl, rfl, rfl, rfl, rfl⟩

/-! ### Concrete fixtures -/

def mem0 : MemEnv := ⟨0, 0, []⟩

def cfg0 : Config := ⟨0, NoEviction, false⟩

/-! ### C10 — unlocking a missing key is a silent no-op -/

/-- C10: for every key absent from the lock map, `KeyUnlock` and `KeyRUnlock`
return without panicking and leave the state (lock map and store) unchanged. -/
theorem C10_unlock_missing_key_noop (st : Keyspace) (key : String)
    (h : KeyExists st key = false) :
    KeyUnlock st key = .ok () st ∧ KeyRUnlock st key = .ok () st := by
  have hl : lookup key st.keyLocks = none := by
    unfold KeyExists at h
    cases hx : lookup key st.keyLocks with
    | none => rfl
    | some l => rw [hx] at h; simp at h
  constructor <;> simp [KeyUnlock, KeyRUnlock, hl]

/-- C10 witness at the empty keyspace and key "a". -/
theorem C10_witness :
    KeyExists Keyspace.empty "a" = false ∧
    KeyUnlock Keyspace.empty "a" = .ok () Keyspace.empty ∧
    KeyRUnlock Keyspace.empty "a" = .ok () Keyspace.empty :=
  ⟨rfl, C10_unlock_missing_key_noop Keyspace.empty "a" rfl⟩

/-! ### C1 — keyspace invariant -/

/-- C1 counterexample: from the empty keyspace, `CreateKeyAndLock "a"`
reaches a state in which `exists("a")` holds (the lock map has the entry) but
the store has no value for "a", refuting "if `exists(k)` then the store has a
value for k" as an invariant of every reachable state. -/
theorem C1_counterexample :
    CreateKeyAndLock cfg0 mem0 Keyspace.empty "a" =
      .ok true { Keyspace.empty with keyLocks := [("a", ⟨true, 0⟩)] } ∧
    KeyExists { Keyspace.empty with keyLocks := [("a", ⟨true, 0⟩)] } "a" = true ∧
    lookup "a" ({ Keyspace.empty with keyLocks := [("a", ⟨true, 0⟩)] }).store = none := by
  refine ⟨?_, rfl, rfl⟩
  decide

/-- C1 amended: `exists(k)` means only that the lock map has an entry for k —
`CreateKeyAndLock` creates the lock entry write-locked while leaving the
store untouched, so a key may exist without a stored value until the first
`SetValue`; and every eviction deletion removes the store value, the lock
entry and the expiry entry together. -/
theorem C1_create_no_value_delete_atomic (cfg : Config) (mem : MemEnv) (st : Keyspace)
    (k : String)
    (hfresh : KeyExists st k = false)
    (hmem : ¬(IsMaxMemoryExceeded cfg.maxMemory mem = true ∧ cfg.evictionPolicy = NoEviction)) :
    (∃ st', CreateKeyAndLock cfg mem st k = .ok true st' ∧
      KeyExists st' k = true ∧ st'.store = st.store) ∧
    (∀ st₀ key, lookup key (deleteKeyEntries st₀ key).store = none ∧
      lookup key (deleteKeyEntries st₀ key).keyLocks = none ∧
      lookup key (deleteKeyEntries st₀ key).keyExpiry = none) := by
  constructor
  · have hgate : (IsMaxMemoryExceeded cfg.maxMemory mem && cfg.evictionPolicy == NoEviction) = false := by
      cases hx : IsMaxMemoryExceeded cfg.maxMemory mem with
      | false => simp
      | true =>
        simp only [Bool.true_and]
        cases hp : cfg.evictionPolicy == NoEviction with
        | false => rfl
        | true => exact absurd ⟨hx, by simpa using hp⟩ hmem
    refine ⟨{ st with keyLocks := insertKV k ⟨true, 0⟩ st.keyLocks }, ?_, ?_, rfl⟩
    · unfold CreateKeyAndLock
      simp [hgate, hfresh]
    · simp [KeyExists]
  · intro st₀ key
    refine ⟨?_, ?_, ?_⟩ <;> simp [deleteKeyEntries]

/-- C1 amended-claim witness at the empty keyspace. -/
theorem C1_witness :
    KeyExists Keyspace.empty "a" = false ∧
    (∃ st', CreateKeyAndLock cfg0 mem0 Keyspace.empty "a" = .ok true st' ∧
      KeyExists st' "a" = true ∧ st'.store = Keyspace.empty.store) :=
  ⟨rfl, (C1_create_no_value_delete_atomic cfg0 mem0 Keyspace.empty "a" rfl
    (by intro h; exact absurd h.1 (by decide))).1⟩

/-! ### C3 — noeviction + memory pressure fails mutators and leaves state -/

/-- C3: when a memory limit is set, the heap reading stays at or above it
(also after the forced GC), and the policy is `noeviction`, both
`CreateKeyAndLock` and `SetValue` fail with the max-memory error and return
the state unchanged. -/
theorem C3_noeviction_out_of_memory (cfg : Config) (mem : MemEnv) (st : Keyspace)
    (key : String) (v : Value)
    (hmax : cfg.maxMemory ≠ 0)
    (h1 : cfg.maxMemory ≤ mem.heapInuse)
    (h2 : cfg.maxMemory ≤ mem.heapAfterGC)
    (hpol : cfg.evictionPolicy = NoEviction) :
    CreateKeyAndLock cfg mem st key = .err "max memory reached, key not created" st ∧
    SetValue cfg mem st key v = .err "max memory reached, key value not set" st := by
  have hex : IsMaxMemoryExceeded cfg.maxMemory mem = true := by
    unfold IsMaxMemoryExceeded
    simp [hmax, Nat.not_lt.mpr h1, h2]
  constructor
  · unfold CreateKeyAndLock
    simp [hex, hpol]
  · unfold SetValue
    simp [hex, hpol]

/-- C3 witness: limit 100 bytes, heap readings 200/150, policy noeviction. -/
theorem C3_witness :
    CreateKeyAndLock ⟨100, NoEviction, false⟩ ⟨200, 150, []⟩ Keyspace.empty "a" =
      .err "max memory reached, key not created" Keyspace.empty ∧
    SetValue ⟨100, NoEviction, false⟩ ⟨200, 150, []⟩ Keyspace.empty "a" (.str "x") =
      .err "max memory reached, key value not set" Keyspace.empty :=
  C3_noeviction_out_of_memory ⟨100, NoEviction, false⟩ ⟨200, 150, []⟩ Keyspace.empty
    "a" (.str "x") (by decide) (by decide) (by decide) rfl

/-! ### C6 — volatile-ttl eviction -/

/-- C6: under the `volatile-ttl` policy `adjustMemoryUsage` falls through the
policy switch to the default branch and returns nil without evicting
anything — for every state and every heap reading, including readings at or
above the limit with TTL-bearing keys present, the state is unchanged. -/
theorem C6_volatile_ttl_evicts_nothing (cfg : Config) (mem : MemEnv) (st : Keyspace)
    (hpol : cfg.evictionPolicy = VolatileTTL) :
    adjustMemoryUsage cfg mem st = .ok () st := by
  unfold adjustMemoryUsage
  rw [hpol]
  have h : goToLower VolatileTTL = VolatileTTL := by decide
  rw [h]
  split_ifs with h1 h2 h3 h4 h5 h6 h7 <;>
    first
      | rfl
      | exact absurd h4 (by decide)
      | exact absurd h5 (by decide)
      | exact absurd h6 (by decide)
      | exact absurd h7 (by decide)

/-- C6 witness at the failing input: limit 100, readings 200/200 (still above
the limit after the GC), a TTL-bearing key "a" — nothing is evicted. -/
theorem C6_witness :
    adjustMemoryUsage ⟨100, VolatileTTL, false⟩ ⟨200, 200, []⟩
        ⟨[("a", .str "v")], [("a", Lock.free)], [("a", 5)], [], [], 0⟩ =
      .ok () ⟨[("a", .str "v")], [("a", Lock.free)], [("a", 5)], [], [], 0⟩ ∧
    lookup "a" ([("a", (5 : Int))]) = some 5 :=
  ⟨C6_volatile_ttl_evicts_nothing ⟨100, VolatileTTL, false⟩ ⟨200, 200, []⟩
    ⟨[("a", .str "v")], [("a", Lock.free)], [("a", 5)], [], [], 0⟩ rfl, rfl⟩

/-! ### C2 — observation of expired keys -/

def st2c : Keyspace := ⟨[("a", .str "v")], [("a", Lock.free)], [("a", 5)], [], [], 0⟩

/-- C2 counterexample: key "a" expired at 5, now = 10, policy `noeviction`.
The claim demands a subsequent access observe "a" as absent (or the sweeper
remove it within one interval); but `KeyExists` still reports true,
`GetValue` still returns the stored value, and under `noeviction` the sweeper
goroutine is never started. -/
theorem C2_counterexample :
    (5 : Int) < 10 ∧
    lookup "a" st2c.keyExpiry = some 5 ∧
    KeyExists st2c "a" = true ∧
    GetValue cfg0 mem0 st2c "a" = .ok (some (.str "v")) st2c ∧
    sweeperStarted cfg0 = false := by
  refine ⟨by decide, rfl, rfl, ?_, by decide⟩
  decide

/-- C2 amended: expiration is never observed on access — `GetValue` returns
the stored value and `KeyExists` reports true for a key whose expiry has
passed; expired keys are removed only by the background sweeper, which runs
every `eviction_interval` but is started only when the eviction policy is not
`noeviction` (under `noeviction` expired keys are never removed
automatically).  The sweeper, when it runs, deletes the expired key's value,
lock and expiry entries. -/
theorem C2_expiry_not_observed_on_access (cfg : Config) (mem : MemEnv) (st : Keyspace)
    (k : String) (v : Value) (e now : Int)
    (hv : lookup k st.store = some v)
    (he : lookup k st.keyExpiry = some e)
    (hzero : e ≠ 0) (hexp : e < now)
    (hmem : cfg.maxMemory = 0 ∨ mem.heapInuse < cfg.maxMemory) :
    KeyExists st k = (lookup k st.keyLocks).isSome ∧
    (∃ st', GetValue cfg mem st k = .ok (some v) st') ∧
    (sweeperStarted cfg = true ↔ cfg.evictionPolicy ≠ NoEviction) ∧
    (lookup k ((evictKeysWithExpiredTTL now st).store) = none ∧
     lookup k ((evictKeysWithExpiredTTL now st).keyLocks) = none ∧
     lookup k ((evictKeysWithExpiredTTL now st).keyExpiry) = none) := by
  refine ⟨rfl, ?_, ?_, ?_⟩
  · obtain ⟨st', hup, hstore, -, -, -⟩ := updateKeyInCache_no_pressure cfg mem st k hmem
    refine ⟨st', ?_⟩
    unfold GetValue
    rw [hup]
    simp [hstore, hv]
  · unfold sweeperStarted
    simp
  · apply foldl_deleteKeyEntries_removes
    have hmemk : (k, e) ∈ st.keyExpiry := mem_of_lookup_eq_some he
    refine List.mem_map.mpr ⟨(k, e), ?_, rfl⟩
    refine List.mem_filter.mpr ⟨hmemk, ?_⟩
    simp [hzero, hexp]

/-- C2 amended-claim witness at the counterexample state. -/
theorem C2_witness :
    lookup "a" st2c.store = some (.str "v") ∧
    (∃ st', GetValue cfg0 mem0 st2c "a" = .ok (some (.str "v")) st') ∧
    lookup "a" ((evictKeysWithExpiredTTL 10 st2c).store) = none :=
  ⟨rfl,
    (C2_expiry_not_observed_on_access cfg0 mem0 st2c "a" (.str "v") 5 10 rfl rfl
      (by decide) (by decide) (Or.inl rfl)).2.1,
    ((C2_expiry_not_observed_on_access cfg0 mem0 st2c "a" (.str "v") 5 10 rfl rfl
      (by decide) (by decide) (Or.inl rfl)).2.2.2).1⟩

/-! ### C8 — read-your-writes -/

/-- C8: after a successful `SetValue(k, v)`, with no intervening mutation of
k (in particular no eviction: no memory limit or heap under the limit), a
`GetValue(k)` returns exactly v. -/
theorem C8_read_your_writes (cfg : Config) (mem : MemEnv) (st : Keyspace)
    (k : String) (v : Value)
    (hmem : cfg.maxMemory = 0 ∨ mem.heapInuse < cfg.maxMemory) :
    ∃ st1 st2, SetValue cfg mem st k v = .ok () st1 ∧
      GetValue cfg mem st1 k = .ok (some v) st2 := by
  have hex : IsMaxMemoryExceeded cfg.maxMemory mem = false := by
    unfold IsMaxMemoryExceeded
    rcases hmem with h | h
    · simp [h]
    · have : ¬cfg.maxMemory = 0 := by omega
      simp [this, h]
  obtain ⟨stA, hup, hstoreA, -, -, -⟩ :=
    updateKeyInCache_no_pressure cfg mem { st with store := insertKV k v st.store } k hmem
  have hvA : lookup k stA.store = some v := by
    rw [hstoreA]; exact lookup_insertKV_self k v st.store
  unfold SetValue
  rw [hex]
  simp only [Bool.false_and, Bool.false_eq_true, if_false]
  rw [hup]
  set st1 := if cfg.isInCluster then stA else { stA with changeCount := stA.changeCount + 1 } with hst1
  have hv1 : lookup k st1.store = some v := by
    rw [hst1]
    split <;> simpa using hvA
  obtain ⟨st2, hup2, hstore2, -, -, -⟩ := updateKeyInCache_no_pressure cfg mem st1 k hmem
  refine ⟨st1, st2, rfl, ?_⟩
  unfold GetValue
  rw [hup2]
  simp [hstore2, hv1]

/-- C8 witness: set then get "k" ↦ "v" on the empty keyspace. -/
theorem C8_witness :
    ∃ st1 st2, SetValue cfg0 mem0 Keyspace.empty "k" (.str "v") = .ok () st1 ∧
      GetValue cfg0 mem0 st1 "k" = .ok (some (.str "v")) st2 :=
  C8_read_your_writes cfg0 mem0 Keyspace.empty "k" (.str "v") (Or.inl rfl)

/-! ### C9 — SADD reply on a fresh key counts duplicate arguments -/

theorem IsMaxMemoryExceeded_eq_false (cfg : Config) (mem : MemEnv)
    (hmem : cfg.maxMemory = 0 ∨ mem.heapInuse < cfg.maxMemory) :
    IsMaxMemoryExceeded cfg.maxMemory mem = false := by
  unfold IsMaxMemoryExceeded
  rcases hmem with h | h
  · simp [h]
  · have hne : ¬cfg.maxMemory = 0 := by omega
    simp [hne, h]

theorem SetValue_no_pressure (cfg : Config) (mem : MemEnv) (st : Keyspace)
    (k : String) (v : Value)
    (hmem : cfg.maxMemory = 0 ∨ mem.heapInuse < cfg.maxMemory) :
    ∃ st', SetValue cfg mem st k v = .ok () st' ∧
      st'.store = insertKV k v st.store ∧ st'.keyLocks = st.keyLocks ∧
      st'.keyExpiry = st.keyExpiry := by
  have hex := IsMaxMemoryExceeded_eq_false cfg mem hmem
  obtain ⟨stA, hup, h1, h2, h3, -⟩ :=
    updateKeyInCache_no_pressure cfg mem { st with store := insertKV k v st.store } k hmem
  unfold SetValue
  rw [hex]
  simp only [Bool.false_and, Bool.false_eq_true, if_false]
  rw [hup]
  refine ⟨_, rfl, ?_, ?_, ?_⟩ <;> split <;> simp [h1, h2, h3]

theorem SetAdd_fst_nodup (elems : List String) (acc : List String × Nat)
    (h : acc.1.Nodup) :
    (List.foldl (fun a e => if a.1.contains e then a else (a.1 ++ [e], a.2 + 1))
      acc elems).1.Nodup := by
  induction elems generalizing acc with
  | nil => exact h
  | cons e rest ih =>
    simp only [List.foldl_cons]
    apply ih
    by_cases hc : e ∈ acc.1
    · simp [hc, h]
    · simp [hc, List.nodup_append, h]

theorem NewSet_nodup (elems : List String) : (NewSet elems).Nodup := by
  unfold NewSet SetAdd
  exact SetAdd_fst_nodup elems ([], 0) (by simp)

/-- C9: when `handleSADD` creates the key, the integer reply is the raw
member-argument count `len(cmd) - 2` while the stored value is the
duplicate-free `NewSet` of those arguments — so with repeated arguments the
reply exceeds the stored cardinality. -/
theorem C9_sadd_new_key_reply (cfg : Config) (mem : MemEnv) (st : Keyspace)
    (cmd : List String)
    (hlen : 3 ≤ cmd.length)
    (hfresh : KeyExists st (cmd.getD 1 "") = false)
    (hmem : cfg.maxMemory = 0 ∨ mem.heapInuse < cfg.maxMemory) :
    ∃ st', handleSADD cfg mem st cmd =
        .ok (":" ++ toString (cmd.length - 2) ++ "\r\n\r\n") st' ∧
      lookup (cmd.getD 1 "") st'.store = some (.set (NewSet (cmd.drop 2))) ∧
      (NewSet (cmd.drop 2)).Nodup := by
  have hex := IsMaxMemoryExceeded_eq_false cfg mem hmem
  have hlt : ¬cmd.length < 3 := Nat.not_lt.mpr hlen
  have hcreate : CreateKeyAndLock cfg mem st (cmd.getD 1 "") =
      .ok true { st with keyLocks := insertKV (cmd.getD 1 "") ⟨true, 0⟩ st.keyLocks } := by
    unfold CreateKeyAndLock
    rw [hex, hfresh]
    rfl
  obtain ⟨st2, hsv, hst2store, hst2locks, -⟩ :=
    SetValue_no_pressure cfg mem
      { st with keyLocks := insertKV (cmd.getD 1 "") ⟨true, 0⟩ st.keyLocks }
      (cmd.getD 1 "") (.set (NewSet (cmd.drop 2))) hmem
  have hunlock : saddUnlockReply st2 (cmd.getD 1 "")
      (":" ++ toString (cmd.length - 2) ++ "\r\n\r\n") =
      .ok (":" ++ toString (cmd.length - 2) ++ "\r\n\r\n")
        { st2 with keyLocks := insertKV (cmd.getD 1 "") Lock.free st2.keyLocks } := by
    unfold saddUnlockReply KeyUnlock
    rw [hst2locks]
    simp [lookup_insertKV_self]
  refine ⟨{ st2 with keyLocks := insertKV (cmd.getD 1 "") Lock.free st2.keyLocks },
    ?_, ?_, NewSet_nodup _⟩
  · unfold handleSADD
    rw [if_neg hlt, hfresh]
    simp only [Bool.not_false, if_true]
    simp only [hcreate]
    simp only [hsv]
    exact hunlock
  · show lookup (cmd.getD 1 "") st2.store = _
    rw [hst2store]
    exact lookup_insertKV_self (cmd.getD 1 "") (Value.set (NewSet (cmd.drop 2)))
      ({ st with keyLocks := insertKV (cmd.getD 1 "") ⟨true, 0⟩ st.keyLocks }).store

/-- C9 witness: `SADD k a a` on a fresh key replies `:2` yet stores the
one-element set, so the reply exceeds the stored cardinality. -/
theorem C9_witness :
    (∃ st', handleSADD cfg0 mem0 Keyspace.empty ["SADD", "k", "a", "a"] =
        .ok ":2\r\n\r\n" st' ∧
      lookup "k" st'.store = some (.set ["a"])) ∧
    NewSet ["a", "a"] = ["a"] ∧ 1 < 2 := by
  refine ⟨?_, by decide, by decide⟩
  obtain ⟨st', h1, h2, -⟩ := C9_sadd_new_key_reply cfg0 mem0 Keyspace.empty
    ["SADD", "k", "a", "a"] (by decide) rfl (Or.inl rfl)
  exact ⟨st', h1, h2⟩

/-! ### C5 — SINTERSTORE / SMEMBERS scenario -/

def st5 : Keyspace :=
  ⟨[("k1", .set ["one", "two", "three", "four", "five"]),
    ("k2", .set ["three", "four", "five", "six", "seven", "eight"])],
   [("k1", Lock.free), ("k2", Lock.free)], [], [], [], 0⟩

def st5' : Keyspace :=
  ⟨[("k1", .set ["one", "two", "three", "four", "five"]),
    ("k2", .set ["three", "four", "five", "six", "seven", "eight"]),
    ("d", .set ["three", "four", "five"])],
   [("k1", Lock.free), ("k2", Lock.free), ("d", Lock.free)], [], [], [], 1⟩

/-- C5: with k1 = one..five and k2 = three..eight,
`SINTERSTORE d k1 k2` replies with the RESP integer 3 and stores the
intersection at d, and a subsequent `SMEMBERS d` yields exactly the members
three, four, five. -/
theorem C5_sinterstore_then_smembers :
    handleSINTERSTORE cfg0 mem0 st5 ["SINTERSTORE", "d", "k1", "k2"] =
      .ok ":3\r\n\r\n" st5' ∧
    lookup "d" st5'.store = some (.set ["three", "four", "five"]) ∧
    handleSMEMBERS cfg0 mem0 st5' ["SMEMBERS", "d"] =
      .ok "*3\r\n$5\r\nthree\r\n$4\r\nfour\r\n$4\r\nfive\r\n\r\n" st5' := by
  refine ⟨by decide, rfl, by decide⟩

/-! ### C4 — ACL authorization -/

def permissiveReadUser : User :=
  ⟨["read"], [], ["*"], [], ["*"], [], ["*"], ["*"], ["*"], []⟩

/-- C4 counterexample: a user whose included categories are only `read`, with
wildcards everywhere else, runs a command carrying categories
`[read, write]`.  `AuthorizeConnection` allows it (the category inclusion
check passes as soon as ONE category is allowed), yet the claim's conditions
— every category allowed — do not hold, so per the claim the call should have
returned Unauthorized. -/
theorem C4_counterexample :
    AuthorizeConnection false true permissiveReadUser "sadd" ["read", "write"] ["k"] = .ok ∧
    ¬authorizeSpecOk false true permissiveReadUser "sadd" ["read", "write"] ["k"] := by
  exact ⟨by decide, by decide⟩

/-- The conditions under which `AuthorizeConnection` actually returns nil:
the claim's universal quantifiers over categories and keys weakened to
existentials, and for pub/sub commands only the first extracted channel
checked with the key checks skipped. -/
def authorizeAmendedOk (requirePass authenticated : Bool) (user : User)
    (comm : String) (categories keys : List String) : Prop :=
  goToLower comm = "auth" ∨
    ((requirePass = true → authenticated = true) ∧
     (∃ c ∈ categories, allowedBy user.includedCategories c = true) ∧
     (∀ c ∈ categories, allowedBy user.excludedCategories c = false) ∧
     allowedBy user.includedCommands comm = true ∧
     allowedBy user.excludedCommands comm = false ∧
     ((categories.contains PubSubCategory = true ∧
        (∃ ch rest, keys = ch :: rest ∧
          allowedBy user.includedPubSubChannels ch = true ∧
          allowedBy user.excludedPubSubChannels ch = false)) ∨
      (categories.contains PubSubCategory = false ∧
        (keys = [] ∨ ∃ k ∈ keys, allowedBy user.includedKeys k = true) ∧
        (categories.contains ReadCategory = true →
          keys = [] ∨ ∃ k ∈ keys, allowedBy user.includedReadKeys k = true) ∧
        (categories.contains WriteCategory = true →
          keys = [] ∨ ∃ k ∈ keys, allowedBy user.includedWriteKeys k = true))))

set_option maxHeartbeats 2000000 in
/-- C4 amended: `AuthorizeConnection` returns nil exactly when: AUTH is the
command; or the connection is authenticated if require_pass is set, AT LEAST
ONE category of the command is allowed and none is excluded, the command name
is allowed and not excluded, and — for pub/sub commands — the first extracted
channel is allowed and not excluded (key checks skipped), otherwise (if any
keys were extracted) AT LEAST ONE key is in included_keys, and likewise one
in included_read_keys / included_write_keys when the command carries the
read / write category. -/
theorem C4_authorize_characterization (requirePass authenticated : Bool) (user : User)
    (comm : String) (categories keys : List String) :
    AuthorizeConnection requirePass authenticated user comm categories keys = .ok ↔
      authorizeAmendedOk requirePass authenticated user comm categories keys := by
  unfold AuthorizeConnection authorizeAmendedOk
  by_cases h0 : goToLower comm = "auth"
  · simp [h0]
  · rw [if_neg h0, or_iff_right h0]
    cases keys with
    | nil =>
      split_ifs with h1 h2 h3 h4 h5 h6 <;>
        simp_all [List.any_eq_true, Bool.and_eq_true, Bool.not_eq_true,
          List.any_eq_false]
    | cons ch krest =>
      split_ifs with h1 h2 h3 h4 h5 h6 <;>
        simp_all [List.any_eq_true, Bool.and_eq_true, Bool.not_eq_true,
          List.any_eq_false]
      · cases hA : allowedBy user.includedPubSubChannels ch <;>
          cases hB : allowedBy user.excludedPubSubChannels ch <;>
          simp [hA, hB]
      · rcases Bool.eq_false_or_eq_true (allowedBy user.includedKeys ch) with hA | hA <;>
          rcases Bool.eq_false_or_eq_true (allowedBy user.includedReadKeys ch) with hR | hR <;>
          rcases Bool.eq_false_or_eq_true (allowedBy user.includedWriteKeys ch) with hW | hW <;>
          simp_all

/-! ### C7 — adaptive typing -/

theorem splitFirst_eq_self (p : Char → Bool) (cs : List Char)
    (h : ∀ c ∈ cs, p c = false) : splitFirst p cs = (cs, none) := by
  induction cs with
  | nil => rfl
  | cons c rest ih =>
    have hc := h c (List.mem_cons_self c rest)
    simp only [splitFirst, hc, Bool.false_eq_true, if_false,
      ih (fun x hx => h x (List.mem_cons_of_mem c hx))]

theorem isDigit_not_eE (c : Char) (h : c.isDigit = true) :
    (decide (c = 'e') || decide (c = 'E')) = false := by
  by_cases h1 : c = 'e'
  · subst h1; exact absurd h (by decide)
  · by_cases h2 : c = 'E'
    · subst h2; exact absurd h (by decide)
    · simp [h1, h2]

theorem isDigit_not_dot (c : Char) (h : c.isDigit = true) :
    decide (c = '.') = false := by
  by_cases h1 : c = '.'
  · subst h1; exact absurd h (by decide)
  · simp [h1]

theorem allDigits_forall {cs : List Char} (hd : allDigits cs = true) :
    ∀ c ∈ cs, c.isDigit = true := by
  intro c hc
  exact List.all_eq_true.mp hd c hc

theorem parseMantissa_digits (cs : List Char) (hne : cs ≠ []) (hd : allDigits cs = true) :
    parseMantissa cs = some ((digitsVal cs : ℚ)) := by
  unfold parseMantissa
  rw [splitFirst_eq_self _ cs (fun c hc => isDigit_not_dot c (allDigits_forall hd c hc))]
  simp [hne, hd]

/-- A base-10 integer token parses to its exact integer value. -/
theorem parseGoDecimal_intLiteral (s : String) (h : isIntegerLiteral s = true) :
    parseGoDecimal s = some ((integerLiteralVal s : ℚ)) := by
  unfold isIntegerLiteral at h
  unfold parseGoDecimal integerLiteralVal
  rcases hs : stripSign s.toList with ⟨sign, ds⟩
  rw [hs] at h
  dsimp only at h ⊢
  rw [Bool.and_eq_true] at h
  obtain ⟨hne', hd⟩ := h
  have hne : ds ≠ [] := by simpa using hne'
  rw [splitFirst_eq_self _ ds (fun c hc => isDigit_not_eE c (allDigits_forall hd c hc))]
  dsimp only
  rw [parseMantissa_digits ds hne hd]
  simp [Int.cast_mul, Int.cast_natCast]

/-- C7 counterexample: the token 2^63 = "9223372036854775808" parses to an
integer value that overflows int64; `AdaptType` returns it as an int
saturated to MaxInt64 — it does not fall back to float as the claim states. -/
theorem C7_counterexample :
    AdaptType "9223372036854775808" = .int 9223372036854775807 ∧
    (AdaptType "9223372036854775808").isFloat = false := by
  have h : AdaptType "9223372036854775808" =
      .int (clampInt64 (integerLiteralVal "9223372036854775808")) := by
    unfold AdaptType
    rw [parseGoDecimal_intLiteral _ (by decide)]
    simp [Rat.den_intCast, Rat.num_intCast]
  rw [h, show clampInt64 (integerLiteralVal "9223372036854775808") = 9223372036854775807
    by decide]
  exact ⟨rfl, rfl⟩

/-- C7 amended: `AdaptType` types a token adaptively — a base-10 integer
token becomes an int whose value is clamped (saturated) to the int64 range
when it overflows, rather than falling back to float; a token parsing to a
non-integer decimal becomes a float; an unparseable token stays a string. -/
theorem C7_adapt_type_amended (s : String) :
    (isIntegerLiteral s = true →
      AdaptType s = .int (clampInt64 (integerLiteralVal s))) ∧
    (∀ q, parseGoDecimal s = some q → q.den ≠ 1 → AdaptType s = .float q) ∧
    (parseGoDecimal s = none → AdaptType s = .str s) := by
  refine ⟨?_, ?_, ?_⟩
  · intro h
    unfold AdaptType
    rw [parseGoDecimal_intLiteral s h]
    simp [Rat.den_intCast, Rat.num_intCast]
  · intro q hq hden
    unfold AdaptType
    rw [hq]
    simp [hden]
  · intro h
    unfold AdaptType
    rw [h]

/-- C7 witness: "12" is an integer token stored as int 12; "0.5" parses to
the non-integer rational 1/2 and is stored as a float; "abc" does not parse
and is stored as the string itself. -/
theorem C7_witness :
    (isIntegerLiteral "12" = true ∧ AdaptType "12" = .int 12) ∧
    (∃ q, parseGoDecimal "0.5" = some q ∧ q.den ≠ 1 ∧ AdaptType "0.5" = .float q) ∧
    (parseGoDecimal "abc" = none ∧ AdaptType "abc" = .str "abc") := by
  refine ⟨⟨by decide, ?_⟩, ?_, ⟨by decide, (C7_adapt_type_amended "abc").2.2 (by decide)⟩⟩
  · rw [(C7_adapt_type_amended "12").1 (by decide)]
    decide
  · have hq : parseGoDecimal "0.5" = some ((1 : ℚ)/2) := by
      simp +decide [parseGoDecimal, stripSign, splitFirst, parseMantissa, allDigits,
        digitsVal, digitVal]
      norm_num
    exact ⟨(1 : ℚ)/2, hq, by norm_num,
      (C7_adapt_type_amended "0.5").2.1 _ hq (by norm_num)⟩

end Fancy
